import Mathlib

/-!
# Magenta: the process dispatcher, the mxio dispatcher and the ACPI notify handler

A shallow embedding of

* `kernel/lib/magenta/include/magenta/process_dispatcher.h` (class `ProcessDispatcher`:
  its fields with their in-class initialisers and its inline accessors; the bodies of the
  out-of-line members are not part of the header and are modelled from the specification),
* `system/ulib/mxio/dispatcher-v2.c` (the user-space I/O port dispatcher),
* `system/uapp/acpisvc/main.c` (the notify handler of the ACPI service).

Pointers are natural numbers (addresses), `NULL` is `none`, `mx_status_t` is `Int`.
-/

namespace Magenta

/-! ## process_dispatcher.h -/

/-- Lifecycle state of a process: `enum class ProcessDispatcher::State`. -/
inductive State where
  | INITIAL
  | RUNNING
  | DYING
  | DEAD
deriving DecidableEq, Repr

/-- Position of a state in the declaration order of the enum. -/
def State.rank : State → Nat
  | .INITIAL => 0
  | .RUNNING => 1
  | .DYING => 2
  | .DEAD => 3

/-- The states in declaration order, starting from a given one. -/
def State.upward : State → List State
  | .INITIAL => [.INITIAL, .RUNNING, .DYING, .DEAD]
  | .RUNNING => [.RUNNING, .DYING, .DEAD]
  | .DYING => [.DYING, .DEAD]
  | .DEAD => [.DEAD]

/-- Modelled from the spec: the class `Handle`, which the header only uses. Spec: "a
(kernel-object-reference, rights-mask) pair with a 32-bit externally visible value", with a
"process association". A handle has its slot in the global handle arena (what
`MapHandleToU32` returns), the koid of the owning process (`process_id()`, 0 while detached),
the object it refers to and its rights. -/
structure Handle where
  index : Nat
  process_id : Nat
  dispatcher : Nat
  rights : Nat
deriving DecidableEq, Repr

/-- The data members of `ProcessDispatcher` that the handle table, the thread roster and the
lifecycle use, plus the koid inherited from `Dispatcher`. Locks are left out: the model is
sequential. `handles_` and `thread_list_` hold the arena slots and thread koids of the list
nodes, head first. -/
structure ProcessDispatcher where
  koid : Nat
  handle_rand_ : Nat
  thread_list_ : List Nat
  main_thread_ : Option Nat
  handles_ : List Nat
  state_ : State
  retcode_ : Int
  bad_handle_policy_ : Nat
  name_ : String
deriving DecidableEq, Repr

namespace ProcessDispatcher

/-- The object right after `explicit ProcessDispatcher(utils::StringPiece name)`: every member
has the value of its in-class initialiser in the header (`handle_rand_ = 0`,
`state_ = State::INITIAL`, `retcode_ = 0`,
`bad_handle_policy_ = MX_POLICY_BAD_HANDLE_IGNORE`, empty lists, null `main_thread_`).
The constant `MX_POLICY_BAD_HANDLE_IGNORE` is declared outside the header and is a
parameter. The koid is assigned later, by `AddProcess`. -/
def construct (MX_POLICY_BAD_HANDLE_IGNORE : Nat) (name : String) : ProcessDispatcher :=
  { koid := 0
    handle_rand_ := 0
    thread_list_ := []
    main_thread_ := none
    handles_ := []
    state_ := State.INITIAL
    retcode_ := 0
    bad_handle_policy_ := MX_POLICY_BAD_HANDLE_IGNORE
    name_ := name }

/-- Inline accessor `State state() const { return state_; }`. -/
def state (p : ProcessDispatcher) : State := p.state_

/-- Inline accessor `uint32_t get_bad_handle_policy() const { return bad_handle_policy_; }`. -/
def get_bad_handle_policy (p : ProcessDispatcher) : Nat := p.bad_handle_policy_

/-- Modelled from the spec: a process as `Create` hands it out, constructed and then given
its koid (by `AddProcess`, spec: "assigns a new unique identifier") and its handle seed (the
spec's "per-table random mixing value"). Both values are parameters. -/
def created (MX_POLICY_BAD_HANDLE_IGNORE koid seed : Nat) (name : String) :
    ProcessDispatcher :=
  { construct MX_POLICY_BAD_HANDLE_IGNORE name with koid := koid, handle_rand_ := seed }

end ProcessDispatcher

/-- Modelled from the spec: the "additional mixing" of `MapHandleToValue`, whose body is not in
the header. The spec says the external value "is derived from an internal table index/slot
combined with a per-table random mixing value" and leaves the function open; here it is any
pair of maps such that, for each seed, decoding the value of a slot gives the slot back. -/
structure Mixing where
  mix : Nat → Nat → Nat
  unmix : Nat → Nat → Nat
  unmix_mix : ∀ seed index, unmix seed (mix seed index) = index

/-- One mixing: exclusive-or of the slot with the seed. -/
def xorMixing : Mixing :=
  { mix := fun seed index => index ^^^ seed
    unmix := fun seed value => value ^^^ seed
    unmix_mix := fun seed index => Nat.xor_cancel_right seed index }

/-- Modelled from the spec: the global handle arena behind `MapHandleToU32`, which the header
only names. A slot number resolves to the handle stored under it, if any. -/
def MapU32ToHandle (arena : List Handle) (index : Nat) : Option Handle :=
  arena.find? (fun h => h.index == index)

/-- Modelled from the spec: `Handle::set_process_id`, recording the owner of the handle in a
slot ("a handle's process association always matches its containing table"). -/
def set_process_id (arena : List Handle) (index koid : Nat) : List Handle :=
  arena.map (fun h => if h.index = index then { h with process_id := koid } else h)

namespace ProcessDispatcher

/-- Modelled from the spec: `MapHandleToValue`, declared in the header ("Uses MapHandleToU32()
plus additional mixing"); the value is the handle's slot mixed with the seed of this table. -/
def MapHandleToValue (M : Mixing) (p : ProcessDispatcher) (h : Handle) : Nat :=
  M.mix p.handle_rand_ h.index

/-- Modelled from the spec: `GetHandle_NoLock`, declared in the header ("Maps a handle value
into a Handle as long we can verify that it belongs to this process"; spec: it "validates
the value maps to a live handle in this table"): decode the slot, resolve it, and accept the
handle only when its owner is this process and the value is the one this table gives it. -/
def GetHandle_NoLock (M : Mixing) (arena : List Handle) (p : ProcessDispatcher)
    (handle_value : Nat) : Option Handle :=
  match MapU32ToHandle arena (M.unmix p.handle_rand_ handle_value) with
  | none => none
  | some h =>
    if h.process_id = p.koid ∧ M.mix p.handle_rand_ h.index = handle_value then some h
    else none

/-- Modelled from the spec: `AddHandle_NoLock`, declared in the header ("Adds |handle| to this
process handle list. The handle->process_id() is set to this process id()"). -/
def AddHandle_NoLock (arena : List Handle) (p : ProcessDispatcher) (h : Handle) :
    List Handle × ProcessDispatcher :=
  (set_process_id arena h.index p.koid, { p with handles_ := h.index :: p.handles_ })

/-- Modelled from the spec: `AddHandle`, the locking variant of `AddHandle_NoLock`. -/
def AddHandle (arena : List Handle) (p : ProcessDispatcher) (h : Handle) :
    List Handle × ProcessDispatcher :=
  AddHandle_NoLock arena p h

/-- Modelled from the spec: `RemoveHandle_NoLock`, declared in the header ("Removes the Handle
corresponding to |handle_value| from this process handle list"); the spec adds that it
"validates the value maps to a live handle in this table before removing". The result is the
new arena, the new process and the removed handle, now detached (`none` is the null
pointer). -/
def RemoveHandle_NoLock (M : Mixing) (arena : List Handle) (p : ProcessDispatcher)
    (handle_value : Nat) : List Handle × ProcessDispatcher × Option Handle :=
  match GetHandle_NoLock M arena p handle_value with
  | none => (arena, p, none)
  | some h =>
    (set_process_id arena h.index 0, { p with handles_ := p.handles_.erase h.index },
      some { h with process_id := 0 })

/-- Modelled from the spec: `RemoveHandle`, the locking variant of `RemoveHandle_NoLock`. -/
def RemoveHandle (M : Mixing) (arena : List Handle) (p : ProcessDispatcher)
    (handle_value : Nat) : List Handle × ProcessDispatcher × Option Handle :=
  RemoveHandle_NoLock M arena p handle_value

/-- Modelled from the spec: `UndoRemoveHandle_NoLock`, declared in the header ("Puts back the
|handle_value| which has not yet been given to another process back into this process"); the
spec: it "reinserts a just-removed handle without reallocating its external value". The value
is decoded to its slot and the handle found there is added back. -/
def UndoRemoveHandle_NoLock (M : Mixing) (arena : List Handle) (p : ProcessDispatcher)
    (handle_value : Nat) : List Handle × ProcessDispatcher :=
  match MapU32ToHandle arena (M.unmix p.handle_rand_ handle_value) with
  | none => (arena, p)
  | some h => AddHandle_NoLock arena p h

/-- Modelled from the spec: `SetState`, declared in the header; it commits the new lifecycle
state. -/
def SetState (p : ProcessDispatcher) (s : State) : ProcessDispatcher :=
  { p with state_ := s }

/-- Modelled from the spec: `AddThread`, declared in the header. Spec: "rejected if the process
is not in INITIAL or RUNNING; the first successfully added thread becomes the main thread and
triggers INITIAL→RUNNING". The result is whether the thread was accepted, the new process and
the states passed to `SetState`, in order. -/
def AddThread (p : ProcessDispatcher) (t : Nat) : Bool × ProcessDispatcher × List State :=
  if p.state_ = State.INITIAL ∨ p.state_ = State.RUNNING then
    let q : ProcessDispatcher :=
      { p with
        thread_list_ := t :: p.thread_list_
        main_thread_ := if p.main_thread_ = none then some t else p.main_thread_ }
    if p.state_ = State.INITIAL then (true, SetState q State.RUNNING, [State.RUNNING])
    else (true, q, [])
  else (false, p, [])

/-- Modelled from the spec: `CreateUserThread`, declared in the header. Spec: "adds a thread to
the roster; fails with invalid-state if the process cannot accept new threads". Creating the
thread object is an external step whose outcome is the argument `thread` (`none`: creation
failed). -/
def CreateUserThread (p : ProcessDispatcher) (thread : Option Nat) :
    Bool × ProcessDispatcher × List State :=
  match thread with
  | none => (false, p, [])
  | some t => AddThread p t

/-- Modelled from the spec: `Start`, declared in the header. Spec: "INITIAL →
first-thread-created → RUNNING" and "Starting a process not in INITIAL fails with an
invalid-state error". -/
def Start (p : ProcessDispatcher) (thread : Option Nat) :
    Bool × ProcessDispatcher × List State :=
  if p.state_ = State.INITIAL then CreateUserThread p thread else (false, p, [])

/-- Modelled from the spec: the transition taken once the roster is empty. Spec: RUNNING, "last
thread exits normally", goes to DYING; DYING, "last thread reaches terminal state", goes to
DEAD; the scenario of section 8 has RUNNING→DYING→DEAD follow "automatically with no further
calls". -/
def rosterDrained (p : ProcessDispatcher) : ProcessDispatcher × List State :=
  match p.state_ with
  | State.RUNNING => (SetState (SetState p State.DYING) State.DEAD, [State.DYING, State.DEAD])
  | State.DYING => (SetState p State.DEAD, [State.DEAD])
  | _ => (p, [])

/-- Modelled from the spec: `RemoveThread`, declared in the header. Spec: "decrements the
roster; if the roster becomes empty and the process is not already terminal, this triggers
RUNNING→DYING". -/
def RemoveThread (p : ProcessDispatcher) (t : Nat) : ProcessDispatcher × List State :=
  let q : ProcessDispatcher := { p with thread_list_ := p.thread_list_.erase t }
  if q.thread_list_ = [] then rosterDrained q else (q, [])

/-- Modelled from the spec: `Kill`, declared in the header. Spec: from INITIAL or RUNNING a
kill request leads to DYING; "Killing a process already in DYING or DEAD is a no-op"; the
process moves on to DEAD once the roster has drained, which is at once when it is empty. -/
def Kill (p : ProcessDispatcher) : ProcessDispatcher × List State :=
  match p.state_ with
  | State.DYING => (p, [])
  | State.DEAD => (p, [])
  | _ =>
    if p.thread_list_ = [] then
      (SetState (SetState p State.DYING) State.DEAD, [State.DYING, State.DEAD])
    else (SetState p State.DYING, [State.DYING])

/-- Modelled from the spec: `Exit`, declared in the header. Spec: exit and kill "both converge
on the same DYING/DEAD path", and "The return code is latched at the first call that drives
the process into DYING/DEAD and subsequent exit calls with different codes do not overwrite
it (first writer wins)". -/
def Exit (p : ProcessDispatcher) (retcode : Int) : ProcessDispatcher × List State :=
  match p.state_ with
  | State.DYING => (p, [])
  | State.DEAD => (p, [])
  | _ => Kill { p with retcode_ := retcode }

/-- Modelled from the spec: the record `GetInfo` fills in, declared outside the header.
Spec: "snapshot of {state, return-code, thread-count estimate}". -/
structure mx_process_info_t where
  state : State
  return_code : Int
  thread_count : Nat
deriving DecidableEq, Repr

/-- Modelled from the spec: `GetInfo`, declared in the header. -/
def GetInfo (p : ProcessDispatcher) : mx_process_info_t :=
  { state := p.state_, return_code := p.retcode_, thread_count := p.thread_list_.length }

/-- An operation applied to a process, with the outcome of the external step it depends on. -/
inductive Op where
  | Start (thread : Option Nat)
  | CreateUserThread (thread : Option Nat)
  | AddThread (t : Nat)
  | RemoveThread (t : Nat)
  | Exit (retcode : Int)
  | Kill
deriving DecidableEq, Repr

/-- One operation: the new process and the states it passed to `SetState`, in order. -/
def apply (p : ProcessDispatcher) : Op → ProcessDispatcher × List State
  | .Start thread => (Start p thread).2
  | .CreateUserThread thread => (CreateUserThread p thread).2
  | .AddThread t => (AddThread p t).2
  | .RemoveThread t => RemoveThread p t
  | .Exit retcode => Exit p retcode
  | .Kill => Kill p

/-- The process after a sequence of operations. -/
def applyAll (p : ProcessDispatcher) : List Op → ProcessDispatcher
  | [] => p
  | op :: ops => applyAll (apply p op).1 ops

/-- The states committed while a sequence of operations runs, in order. -/
def transitions (p : ProcessDispatcher) : List Op → List State
  | [] => []
  | op :: ops => (apply p op).2 ++ transitions (apply p op).1 ops

/-- The sequence of values `state()` takes: the state at the start, then every committed
state. -/
def observed (p : ProcessDispatcher) (ops : List Op) : List State :=
  p.state :: transitions p ops

end ProcessDispatcher

/-! ## dispatcher-v2.c -/

/-- Status codes the dispatcher returns. They are defined in a header that is not among the
sources, so their values are parameters. -/
structure mx_errors where
  NO_ERROR : Int
  ERR_NO_MEMORY : Int
  ERR_NO_RESOURCES : Int
  ERR_BAD_STATE : Int
  ERR_DISPATCHER_NO_WORK : Int

/-- Signal bits tested by the dispatcher loop. They are defined in a header that is not among
the sources, so their values are parameters. -/
structure mx_signals where
  MX_SIGNAL_READABLE : Nat
  MX_SIGNAL_PEER_CLOSED : Nat
  MX_SIGNAL_SIGNALED : Nat

/-- The fields of `handler_t` besides the list node: `h`, `flags`, `cb`, `cookie`. -/
structure handler_t where
  h : Int
  flags : Nat
  cb : Nat
  cookie : Nat
deriving DecidableEq, Repr

/-- `#define FLAG_DISCONNECTED 1`. -/
def FLAG_DISCONNECTED : Nat := 1

/-- The fields of `struct mxio_dispatcher` besides the lock: `list` holds the nodes of the
handler list in order, each as the address of its `handler_t` and its contents; `t` is
`none` for `NULL`. The model is sequential, so the state of the lock is not tracked; that
locking and unlocking touch the block is modelled where the block can have been freed, in
`mxio_dispatcher_start`. -/
structure mxio_dispatcher where
  list : List (Nat × handler_t)
  ioport : Int
  cb : Nat
  t : Option Nat
deriving DecidableEq, Repr

/-- Calls into the runtime and the kernel that the start path makes. -/
inductive sys_call where
  | mxr_mutex_lock
  | mxr_mutex_unlock
  | mxr_thread_create
  | mxr_thread_detach (t : Nat)
  | mx_handle_close (h : Int)
  | free
deriving DecidableEq, Repr

/-- A block of the C heap holding a dispatcher: `some` object while it is live, `none` once
it has been freed. -/
abbrev block := Option mxio_dispatcher

/-- The library call `free(md)`: the block is live no longer. -/
def free (_ : block) : block := none

/-- The read `md->ioport`: a freed block has no defined contents. -/
def load_ioport (md : block) : Option Int := md.map (fun d => d.ioport)

/-- The function `mxio_dispatcher_create`. `calloc_ok` tells whether `calloc` returned a
block, `port` is what `mx_io_port_create(0u)` returned, `out` is what `*out` held before the
call. The result is the returned status (`none` when the `return` statement reads a freed
block) and what `*out` holds afterwards. -/
def mxio_dispatcher_create (E : mx_errors) (calloc_ok : Bool) (port : Int)
    (out : Option mxio_dispatcher) (cb : Nat) : Option Int × Option mxio_dispatcher :=
  if calloc_ok = false then (some E.ERR_NO_MEMORY, out)
  else
    -- calloc: every field zero; list_initialize: the list is empty
    let md0 : mxio_dispatcher := { list := [], ioport := 0, cb := 0, t := none }
    let md1 : mxio_dispatcher := { md0 with ioport := port }
    if md1.ioport < 0 then
      let md2 : block := free (some md1)
      (load_ioport md2, out)
    else
      (some E.NO_ERROR, some { md1 with cb := cb })

/-- The function `mxio_dispatcher_destroy`: closes the port and frees the dispatcher. -/
def mxio_dispatcher_destroy (md : mxio_dispatcher) : block × List sys_call :=
  (free (some md), [sys_call.mx_handle_close md.ioport, sys_call.free])

/-- The call `mxr_mutex_unlock(&md->lock)`: the lock lies inside the dispatcher block, so the
call writes into the block. On a live block it leaves the fields of the model as they are;
on a freed block it has no defined outcome (`none`). -/
def mxr_mutex_unlock (md : block) : Option block :=
  match md with
  | none => none
  | some d => some (some d)

/-- The part of `mxio_dispatcher_start` between `mxr_mutex_lock` and `mxr_mutex_unlock`:
the value given to `r`, the dispatcher block afterwards (`none` once destroyed) and the
calls made. -/
def mxio_dispatcher_start_locked (E : mx_errors) (md : mxio_dispatcher) (status : Int)
    (thread : Nat) : Int × block × List sys_call :=
  match md.t with
  | none =>
    if status ≠ 0 then
      (E.ERR_NO_RESOURCES, (mxio_dispatcher_destroy md).1,
        sys_call.mxr_thread_create :: (mxio_dispatcher_destroy md).2)
    else
      (E.NO_ERROR, some { md with t := some thread },
        [sys_call.mxr_thread_create, sys_call.mxr_thread_detach thread])
  | some _ => (E.ERR_BAD_STATE, some md, [])

/-- The function `mxio_dispatcher_start`. `status` is what `mxr_thread_create` returns and
`thread` the thread it stores in `md->t` when it succeeds; both are consulted only on the
path that calls it. The result is the returned status, the dispatcher block (`none` once
destroyed) and the calls made, from `mxr_mutex_lock` to `mxr_mutex_unlock`. The status is
`none` when the final `mxr_mutex_unlock(&md->lock)` writes into a block that
`mxio_dispatcher_destroy` has freed: the code defines nothing from there on. -/
def mxio_dispatcher_start (E : mx_errors) (md : mxio_dispatcher) (status : Int)
    (thread : Nat) : Option Int × block × List sys_call :=
  let locked := mxio_dispatcher_start_locked E md status thread
  let calls := sys_call.mxr_mutex_lock :: (locked.2.2 ++ [sys_call.mxr_mutex_unlock])
  match mxr_mutex_unlock locked.2.1 with
  | none => (none, locked.2.1, calls)
  | some unlocked => (some locked.1, unlocked, calls)

/-- The list operation `list_delete(&handler->node)`: unlinks the node at that address. -/
def list_delete (list : List (Nat × handler_t)) (handler : Nat) : List (Nat × handler_t) :=
  list.filter (fun n => n.1 != handler)

/-- The function `mxio_dispatcher_add`. `malloc` is the address `malloc` returned (`none` for
`NULL`), `bind` is what `mx_io_port_bind` returned. The result is the returned status and the
dispatcher afterwards. -/
def mxio_dispatcher_add (E : mx_errors) (md : mxio_dispatcher) (malloc : Option Nat)
    (bind : Int) (h : Int) (cb cookie : Nat) : Int × mxio_dispatcher :=
  match malloc with
  | none => (E.ERR_NO_MEMORY, md)
  | some handler =>
    let node : handler_t := { h := h, flags := 0, cb := cb, cookie := cookie }
    let md1 : mxio_dispatcher := { md with list := md.list ++ [(handler, node)] }
    let r := bind
    let md2 : mxio_dispatcher :=
      if r < 0 then { md1 with list := list_delete md1.list handler } else md1
    (r, md2)

/-- The part of `mx_io_packet_t` the loop reads: `hdr.key` and `signals`. -/
structure mx_io_packet_t where
  key : Nat
  signals : Nat
deriving DecidableEq, Repr

/-- What one `mx_io_port_wait` delivers: its status and the packet. -/
structure wait_result where
  r : Int
  packet : mx_io_packet_t
deriving DecidableEq, Repr

/-- What the dispatcher loop does to a handler, named by the address of the handler:
`callback` is `md->cb(handler->h, ...)` in the drain loop, `close` the synthesized
`md->cb(0, ...)`, `disconnect` a call of `disconnect_handler`, `destroy` a call of
`destroy_handler`. -/
inductive Event where
  | callback (handler : Nat) (h : Int)
  | close (handler : Nat)
  | disconnect (handler : Nat)
  | destroy (handler : Nat)
deriving DecidableEq, Repr

/-- Whether an event is an invocation of `md->cb` for the handler at `key`. -/
def Event.invokes (key : Nat) : Event → Bool
  | .callback handler _ => handler == key
  | .close handler => handler == key
  | _ => false

/-- The handler a packet key points to, while it is allocated. -/
def handler_at (md : mxio_dispatcher) (key : Nat) : Option handler_t :=
  md.list.lookup key

/-- The test `handler->flags & FLAG_DISCONNECTED`. -/
def is_disconnected (hd : handler_t) : Bool :=
  hd.flags &&& FLAG_DISCONNECTED != 0

/-- The function `destroy_handler`: unlinks the handler, closes its handle and frees it. -/
def destroy_handler (md : mxio_dispatcher) (handler : Nat) : mxio_dispatcher :=
  { md with list := list_delete md.list handler }

/-- The function `disconnect_handler`: after unbinding the handle and queueing the synthetic
packet (both calls into the kernel), `handler->flags |= FLAG_DISCONNECTED`. -/
def disconnect_handler (md : mxio_dispatcher) (handler : Nat) : mxio_dispatcher :=
  { md with
    list := md.list.map (fun n =>
      if n.1 = handler then (n.1, { n.2 with flags := n.2.flags ||| FLAG_DISCONNECTED })
      else n) }

/-- How the inner `for (;;)` of the loop, which drains readable messages, is left. -/
inductive drain_exit where
  | no_work
  | disconnect
  | out_of_fuel
deriving DecidableEq, Repr

/-- The inner `for (;;)` of `mxio_dispatcher_thread`. `cbret n` is what the `n`-th invocation
of `md->cb` returns, `calls` counts the invocations so far, the first argument bounds the
number of iterations. The result is the events, the new count and how the loop was left:
`no_work` is the `break`, `disconnect` the path to `disconnect_handler` and `goto again`. -/
def drain (E : mx_errors) (cbret : Nat → Int) (key : Nat) (hd : handler_t) :
    Nat → Nat → List Event × Nat × drain_exit
  | 0, calls => ([], calls, drain_exit.out_of_fuel)
  | fuel + 1, calls =>
    let r := cbret calls
    if r ≠ 0 then
      if r = E.ERR_DISPATCHER_NO_WORK then
        ([Event.callback key hd.h], calls + 1, drain_exit.no_work)
      else if r < 0 then
        ([Event.callback key hd.h, Event.close key], calls + 2, drain_exit.disconnect)
      else
        ([Event.callback key hd.h], calls + 1, drain_exit.disconnect)
    else
      let rest := drain E cbret key hd fuel (calls + 1)
      (Event.callback key hd.h :: rest.1, rest.2.1, rest.2.2)

/-- What one pass of the outer loop leaves: the events, the dispatcher, the count of
callback invocations and whether the loop goes on (`false`: the drain loop ran out of fuel,
or the key is not the address of an allocated handler, which the C code dereferences
regardless). -/
structure pass_result where
  events : List Event
  md : mxio_dispatcher
  calls : Nat
  goes_on : Bool
deriving DecidableEq, Repr

/-- The body of the outer `for (;;)` of `mxio_dispatcher_thread`, from a received packet
on. -/
def dispatch (S : mx_signals) (E : mx_errors) (cbret : Nat → Int) (fuel : Nat)
    (md : mxio_dispatcher) (calls : Nat) (packet : mx_io_packet_t) : pass_result :=
  match handler_at md packet.key with
  | none => { events := [], md := md, calls := calls, goes_on := false }
  | some hd =>
    if is_disconnected hd then
      if packet.signals &&& S.MX_SIGNAL_SIGNALED ≠ 0 then
        { events := [Event.destroy packet.key], md := destroy_handler md packet.key,
          calls := calls, goes_on := true }
      else { events := [], md := md, calls := calls, goes_on := true }
    else
      let d : List Event × Nat × drain_exit :=
        if packet.signals &&& S.MX_SIGNAL_READABLE ≠ 0 then
          drain E cbret packet.key hd fuel calls
        else ([], calls, drain_exit.no_work)
      match d.2.2 with
      | drain_exit.out_of_fuel =>
        { events := d.1, md := md, calls := d.2.1, goes_on := false }
      | drain_exit.disconnect =>
        { events := d.1 ++ [Event.disconnect packet.key],
          md := disconnect_handler md packet.key, calls := d.2.1, goes_on := true }
      | drain_exit.no_work =>
        if packet.signals &&& S.MX_SIGNAL_PEER_CLOSED ≠ 0 then
          { events := d.1 ++ [Event.close packet.key, Event.disconnect packet.key],
            md := disconnect_handler md packet.key, calls := d.2.1 + 1, goes_on := true }
        else { events := d.1, md := md, calls := d.2.1, goes_on := true }

/-- One pass of the outer loop as an observer sees it: the packet received, the dispatcher
at that moment, and the events of the pass. -/
structure Step where
  packet : mx_io_packet_t
  md : mxio_dispatcher
  events : List Event
deriving DecidableEq, Repr

/-- The function `mxio_dispatcher_thread`, run on the sequence of results of
`mx_io_port_wait`: the passes of the outer loop, in order. A negative wait status leaves the
loop. -/
def mxio_dispatcher_thread (S : mx_signals) (E : mx_errors) (cbret : Nat → Int) (fuel : Nat) :
    List wait_result → mxio_dispatcher → Nat → List Step
  | [], _, _ => []
  | w :: ws, md, calls =>
    if w.r < 0 then []
    else
      let pass := dispatch S E cbret fuel md calls w.packet
      { packet := w.packet, md := md, events := pass.events } ::
        (if pass.goes_on then mxio_dispatcher_thread S E cbret fuel ws pass.md pass.calls
         else [])

/-- The events of a run, in order. -/
def trace (steps : List Step) : List Event :=
  steps.flatMap (fun s => s.events)

/-- A handler address for which the loop invokes no callback: no handler is allocated there,
or the one that is has `FLAG_DISCONNECTED` set. -/
def silenced (md : mxio_dispatcher) (key : Nat) : Prop :=
  ∀ hd, handler_at md key = some hd → is_disconnected hd = true

/-! ## acpisvc/main.c -/

/-- ACPICA constants the notify handler tests. They are defined in ACPICA headers that are
not among the sources, so their values are parameters. -/
structure acpi_consts where
  AE_OK : Nat
  ACPI_VALID_HID : Nat

/-- The struct `ACPI_PNP_DEVICE_ID` as the handler reads it: `Length`, and `String` as the
bytes of the C string before its terminating zero. -/
structure ACPI_PNP_DEVICE_ID where
  Length : Nat
  String : List Nat
deriving DecidableEq, Repr

/-- The fields of `ACPI_DEVICE_INFO` the handler reads: `Valid` and `HardwareId`. -/
structure ACPI_DEVICE_INFO where
  Valid : Nat
  HardwareId : ACPI_PNP_DEVICE_ID
deriving DecidableEq, Repr

/-- The C library function `strncmp` on strings given by their bytes before the terminating
zero: at most `n` characters are compared, a byte past the end reads as zero, and the
comparison stops at the first difference or at a zero. -/
def strncmp : List Nat → List Nat → Nat → Int
  | _, _, 0 => 0
  | s1, s2, n + 1 =>
    if s1.headD 0 ≠ s2.headD 0 then (s1.headD 0 : Int) - (s2.headD 0 : Int)
    else if s1.headD 0 = 0 then 0
    else strncmp s1.tail s2.tail n

/-- The bytes of a string literal. -/
def literal (s : String) : List Nat :=
  s.toList.map Char.toNat

/-- Calls the notify handler makes after `AcpiGetObjectInfo`. -/
inductive acpi_call where
  | mx_event_signal (event : Int)
  | ACPI_FREE
deriving DecidableEq, Repr

/-- The function `notify_event_handler`. `status` and `info` are what `AcpiGetObjectInfo`
returned and stored (`none`: `info` is still `NULL`), `cmp` is the comparison `strncmp`,
`event` is `Context` converted to a handle. The result is the calls made, in order; it is
`none` when the status is `AE_OK` although `info` is `NULL`, where the C code reads
`info->Valid` through the null pointer. -/
def notify_event_handler (K : acpi_consts) (cmp : List Nat → List Nat → Nat → Int)
    (status : Nat) (info : Option ACPI_DEVICE_INFO) (Value : Nat) (event : Int) :
    Option (List acpi_call) :=
  if status ≠ K.AE_OK then
    match info with
    | some _ => some [acpi_call.ACPI_FREE]
    | none => some []
  else
    match info with
    | none => none
    | some i =>
      let power_btn : Bool :=
        if i.Valid &&& K.ACPI_VALID_HID ≠ 0 then
          if Value = 128 ∧ cmp i.HardwareId.String (literal "PNP0C0C") i.HardwareId.Length = 0
          then true
          else if Value = 199 ∧
              (cmp i.HardwareId.String (literal "MSHW0028") i.HardwareId.Length = 0 ∨
                cmp i.HardwareId.String (literal "MSHW0040") i.HardwareId.Length = 0)
          then true
          else false
        else false
      if power_btn then some [acpi_call.mx_event_signal event, acpi_call.ACPI_FREE]
      else some [acpi_call.ACPI_FREE]

/-! ## Theorems -/

section HandleTable

open ProcessDispatcher

theorem MapU32ToHandle_set_process_id (arena : List Handle) (i k j : Nat) :
    MapU32ToHandle (set_process_id arena i k) j =
      (MapU32ToHandle arena j).map
        (fun h => if h.index = i then { h with process_id := k } else h) := by
  unfold MapU32ToHandle set_process_id
  rw [List.find?_map]
  congr 1
  congr 1
  funext h
  by_cases hi : h.index = i <;> simp [hi]

theorem set_process_id_twice (arena : List Handle) (i k k2 : Nat) :
    set_process_id (set_process_id arena i k) i k2 = set_process_id arena i k2 := by
  unfold set_process_id
  rw [List.map_map]
  congr 1
  funext h
  by_cases hi : h.index = i <;> simp [hi]

theorem GetHandle_NoLock_after_add (M : Mixing) (arena : List Handle) (p : ProcessDispatcher)
    (h : Handle) (hres : MapU32ToHandle arena h.index = some h) :
    GetHandle_NoLock M (AddHandle arena p h).1 (AddHandle arena p h).2
        (MapHandleToValue M (AddHandle arena p h).2 h) =
      some { h with process_id := p.koid } := by
  simp [GetHandle_NoLock, AddHandle, AddHandle_NoLock, MapHandleToValue, M.unmix_mix,
    MapU32ToHandle_set_process_id, hres]

/-- C1. Handle-table round trip: when `AddHandle` has put a handle `h` of the arena into the
table of a process under the value `v = MapHandleToValue(h)`, then `RemoveHandle_NoLock(v)`
returns `h` (detached), and `UndoRemoveHandle_NoLock(v)` after it leaves `h` resident under the same
value `v`: `GetHandle_NoLock(v)` returns `h`, `MapHandleToValue(h)` is `v`, and arena and
table are exactly what they were after the add. -/
theorem undo_remove_round_trip (M : Mixing) (arena : List Handle) (p : ProcessDispatcher)
    (h : Handle) (hres : MapU32ToHandle arena h.index = some h) :
    let added := AddHandle arena p h
    let v := MapHandleToValue M added.2 h
    let removed := RemoveHandle_NoLock M added.1 added.2 v
    let undone := UndoRemoveHandle_NoLock M removed.1 removed.2.1 v
    GetHandle_NoLock M added.1 added.2 v = some { h with process_id := p.koid } ∧
    removed.2.2 = some { h with process_id := 0 } ∧
    GetHandle_NoLock M undone.1 undone.2 v = some { h with process_id := p.koid } ∧
    MapHandleToValue M undone.2 { h with process_id := p.koid } = v ∧
    h.index ∈ undone.2.handles_ ∧
    undone = added := by
  intro added v removed undone
  have hget : GetHandle_NoLock M added.1 added.2 v = some { h with process_id := p.koid } :=
    GetHandle_NoLock_after_add M arena p h hres
  have hrem : removed = (set_process_id added.1 h.index 0,
      { added.2 with handles_ := added.2.handles_.erase h.index },
      some { h with process_id := 0 }) := by
    show RemoveHandle_NoLock M added.1 added.2 v = _
    unfold RemoveHandle_NoLock
    rw [hget]
  have hundo : undone = added := by
    show UndoRemoveHandle_NoLock M removed.1 removed.2.1 v = _
    rw [hrem]
    simp [UndoRemoveHandle_NoLock, added, v, AddHandle, AddHandle_NoLock, MapHandleToValue,
      M.unmix_mix, MapU32ToHandle_set_process_id, hres, set_process_id_twice]
  refine ⟨hget, ?_, ?_, ?_, ?_, hundo⟩
  · rw [hrem]
  · rw [hundo]; exact hget
  · rw [hundo]; rfl
  · rw [hundo]; simp [added, AddHandle, AddHandle_NoLock]

theorem undo_remove_round_trip_witness :
    MapU32ToHandle [⟨3, 0, 7, 1⟩] 3 = some ⟨3, 0, 7, 1⟩ ∧
    GetHandle_NoLock xorMixing
        (UndoRemoveHandle_NoLock xorMixing
          (RemoveHandle_NoLock xorMixing [⟨3, 5, 7, 1⟩]
            { created 0 5 9 "p" with handles_ := [3] } 10).1
          (RemoveHandle_NoLock xorMixing [⟨3, 5, 7, 1⟩]
            { created 0 5 9 "p" with handles_ := [3] } 10).2.1 10).1
        (UndoRemoveHandle_NoLock xorMixing
          (RemoveHandle_NoLock xorMixing [⟨3, 5, 7, 1⟩]
            { created 0 5 9 "p" with handles_ := [3] } 10).1
          (RemoveHandle_NoLock xorMixing [⟨3, 5, 7, 1⟩]
            { created 0 5 9 "p" with handles_ := [3] } 10).2.1 10).2 10 =
      some ⟨3, 5, 7, 1⟩ :=
  ⟨by decide,
    (undo_remove_round_trip xorMixing [⟨3, 0, 7, 1⟩] (created 0 5 9 "p") ⟨3, 0, 7, 1⟩
      (by decide)).2.2.1⟩

/-- A mixing that does not keep the values of two tables apart: with exclusive-or mixing,
process 1 (seed 0) gets value 2 for the handle in slot 2, and process 2 (seed 1) owns the
handle in slot 3, whose value is 2 as well. `RemoveHandle(2)` on process 2 then finds the
handle of process 2 itself and removes it. -/
theorem foreign_value_may_collide :
    (created 0 1 0 "p1").koid ≠ ({ created 0 2 1 "p2" with handles_ := [3] }).koid ∧
    MapU32ToHandle [⟨2, 0, 10, 0⟩, ⟨3, 2, 11, 0⟩] 2 = some ⟨2, 0, 10, 0⟩ ∧
    MapHandleToValue xorMixing
      (AddHandle [⟨2, 0, 10, 0⟩, ⟨3, 2, 11, 0⟩] (created 0 1 0 "p1") ⟨2, 0, 10, 0⟩).2
      ⟨2, 0, 10, 0⟩ = 2 ∧
    RemoveHandle xorMixing
      (AddHandle [⟨2, 0, 10, 0⟩, ⟨3, 2, 11, 0⟩] (created 0 1 0 "p1") ⟨2, 0, 10, 0⟩).1
      { created 0 2 1 "p2" with handles_ := [3] } 2 =
      ([⟨2, 1, 10, 0⟩, ⟨3, 0, 11, 0⟩], created 0 2 1 "p2", some ⟨3, 0, 11, 0⟩) ∧
    ¬ (RemoveHandle xorMixing
      (AddHandle [⟨2, 0, 10, 0⟩, ⟨3, 2, 11, 0⟩] (created 0 1 0 "p1") ⟨2, 0, 10, 0⟩).1
      { created 0 2 1 "p2" with handles_ := [3] } 2).2.2 = none := by
  decide

theorem RemoveHandle_NoLock_result {M : Mixing} {arena : List Handle} {p : ProcessDispatcher}
    {v : Nat} {h : Handle} (hr : (RemoveHandle_NoLock M arena p v).2.2 = some h) :
    ∃ h0, GetHandle_NoLock M arena p v = some h0 ∧ h.index = h0.index ∧
      (RemoveHandle_NoLock M arena p v).1 = set_process_id arena h0.index 0 := by
  unfold RemoveHandle_NoLock at hr ⊢
  cases hg : GetHandle_NoLock M arena p v with
  | none => simp [hg] at hr
  | some h0 =>
    simp only [hg] at hr ⊢
    simp at hr
    subst hr
    exact ⟨h0, rfl, rfl, rfl⟩

end HandleTable

section Lifecycle

open ProcessDispatcher

theorem chain_append_getLastD {α : Type} {R : α → α → Prop} :
    ∀ (l1 l2 : List α) (a : α), List.Chain R a l1 → List.Chain R (l1.getLastD a) l2 →
      List.Chain R a (l1 ++ l2)
  | [], _, _, _, h2 => by simpa using h2
  | b :: l, l2, a, h1, h2 => by
    rw [List.chain_cons] at h1
    rw [List.cons_append, List.chain_cons]
    rw [List.getLastD_cons] at h2
    exact ⟨h1.1, chain_append_getLastD l l2 b h1.2 h2⟩

theorem getLastD_append {α : Type} :
    ∀ (l1 l2 : List α) (a : α), (l1 ++ l2).getLastD a = l2.getLastD (l1.getLastD a)
  | [], _, _ => by simp
  | b :: l, l2, a => by
    rw [List.cons_append, List.getLastD_cons, List.getLastD_cons]
    exact getLastD_append l l2 b

theorem upward_step (a b : State) (hlt : a.rank < b.rank) :
    (a :: b.upward).Sublist a.upward := by
  cases a <;> cases b <;> simp [State.rank] at hlt <;> decide

theorem upward_sublist_all (a : State) :
    a.upward.Sublist [State.INITIAL, State.RUNNING, State.DYING, State.DEAD] := by
  cases a <;> decide

theorem rank_injective {a b : State} (h : a.rank = b.rank) : a = b := by
  cases a <;> cases b <;> simp [State.rank] at h <;> rfl

theorem destutter_chain_sublist :
    ∀ (l : List State) (a : State), List.Chain (fun x y => x.rank ≤ y.rank) a l →
      (List.destutter' (fun x y => x ≠ y) a l).Sublist a.upward
  | [], a, _ => by
    cases a <;> decide
  | b :: l, a, h => by
    rw [List.chain_cons] at h
    rw [List.destutter'_cons]
    by_cases hab : a = b
    · subst hab
      simp only [ne_eq, not_true_eq_false, if_false]
      exact destutter_chain_sublist l a h.2
    · simp only [ne_eq, hab, not_false_eq_true, if_true]
      have hlt : a.rank < b.rank :=
        lt_of_le_of_ne h.1 (fun e => hab (rank_injective e))
      exact ((destutter_chain_sublist l b h.2).cons₂ a).trans (upward_step a b hlt)

/-- Every operation commits states in ascending order, and the state it leaves is the last
one it committed (or the old state when it committed none). -/
theorem apply_commits (p : ProcessDispatcher) (op : Op) :
    List.Chain (fun x y => x.rank ≤ y.rank) p.state_ (apply p op).2 ∧
      (apply p op).1.state_ = (apply p op).2.getLastD p.state_ := by
  obtain ⟨koid, seed, threads, main, handles, st, rc, pol, name⟩ := p
  cases op with
  | Start thread =>
    cases thread <;> cases st <;>
      simp [apply, Start, CreateUserThread, AddThread, SetState, State.rank]
  | CreateUserThread thread =>
    cases thread <;> cases st <;>
      simp [apply, CreateUserThread, AddThread, SetState, State.rank]
  | AddThread t =>
    cases st <;> simp [apply, AddThread, SetState, State.rank]
  | RemoveThread t =>
    cases st <;> simp only [apply, RemoveThread] <;> split_ifs <;>
      simp [rosterDrained, SetState, State.rank]
  | Exit retcode =>
    cases st <;> simp only [apply, Exit, Kill] <;> try split_ifs
    all_goals simp [SetState, State.rank]
  | Kill =>
    cases st <;> simp only [apply, Kill] <;> try split_ifs
    all_goals simp [SetState, State.rank]

theorem transitions_chain :
    ∀ (ops : List Op) (p : ProcessDispatcher),
      List.Chain (fun x y => x.rank ≤ y.rank) p.state_ (transitions p ops) ∧
        (transitions p ops).getLastD p.state_ = (applyAll p ops).state_
  | [], p => by simp [transitions, applyAll]
  | op :: ops, p => by
    obtain ⟨hc, hl⟩ := apply_commits p op
    obtain ⟨ihc, ihl⟩ := transitions_chain ops (apply p op).1
    simp only [transitions, applyAll]
    refine ⟨chain_append_getLastD _ _ _ hc ?_, ?_⟩
    · rw [← hl]; exact ihc
    · rw [getLastD_append, ← hl]; exact ihl

theorem chain_rank_le_getLastD :
    ∀ (l : List State) (a : State), List.Chain (fun x y => x.rank ≤ y.rank) a l →
      a.rank ≤ (l.getLastD a).rank
  | [], _, _ => by simp
  | b :: l, a, h => by
    rw [List.chain_cons] at h
    rw [List.getLastD_cons]
    exact le_trans h.1 (chain_rank_le_getLastD l b h.2)

/-- C3. Lifecycle monotonicity: for every process and every sequence of operations (Start,
CreateUserThread, AddThread, RemoveThread, Exit, Kill), the values `state()` takes, from the
state at the start through every committed state, never decrease in the order INITIAL,
RUNNING, DYING, DEAD; with repetitions dropped they form a subsequence of INITIAL, RUNNING,
DYING, DEAD; the last of them is the state of the process at the end; and no single
operation leaves the process in an earlier state. -/
theorem lifecycle_monotone (p : ProcessDispatcher) (ops : List Op) :
    List.Chain' (fun x y => x.rank ≤ y.rank) (observed p ops) ∧
    (List.destutter (fun x y => x ≠ y) (observed p ops)).Sublist
      [State.INITIAL, State.RUNNING, State.DYING, State.DEAD] ∧
    (observed p ops).getLast? = some (applyAll p ops).state ∧
    ∀ op, p.state.rank ≤ (apply p op).1.state.rank := by
  obtain ⟨hc, hl⟩ := transitions_chain ops p
  refine ⟨hc, ?_, ?_, ?_⟩
  · show (List.destutter' (fun x y => x ≠ y) p.state_ (transitions p ops)).Sublist _
    exact (destutter_chain_sublist _ _ hc).trans (upward_sublist_all _)
  · show (p.state_ :: transitions p ops).getLast? = some (applyAll p ops).state_
    rw [← hl, List.getLast?_cons, List.getLastD_eq_getLast?]
  · intro op
    obtain ⟨hc1, hl1⟩ := apply_commits p op
    show p.state_.rank ≤ (apply p op).1.state_.rank
    rw [hl1]
    exact chain_rank_le_getLastD _ _ hc1

/-- A later exit call never overwrites the latched code: a process that has already exited
with code 5 keeps 5 when `Exit(7)` and then `Exit(9)` are called on it. -/
theorem exit_pair_on_exited_process :
    (GetInfo (Exit (Exit (Exit (construct 0 "p") 5).1 7).1 9).1).return_code = 5 ∧
    ¬ (GetInfo (Exit (Exit (Exit (construct 0 "p") 5).1 7).1 9).1).return_code = 7 := by
  decide

/-- C7. A newly constructed process object is in lifecycle state INITIAL: `state()` returns
`State::INITIAL`, and the stored return code is 0. -/
theorem new_process_is_initial (MX_POLICY_BAD_HANDLE_IGNORE : Nat) (name : String) :
    (construct MX_POLICY_BAD_HANDLE_IGNORE name).state = State.INITIAL ∧
    (construct MX_POLICY_BAD_HANDLE_IGNORE name).retcode_ = 0 :=
  ⟨rfl, rfl⟩

/-- C8. The bad-handle policy defaults to ignore: on a newly constructed process
`get_bad_handle_policy()` returns `MX_POLICY_BAD_HANDLE_IGNORE`. -/
theorem bad_handle_policy_defaults_to_ignore (MX_POLICY_BAD_HANDLE_IGNORE : Nat)
    (name : String) :
    (construct MX_POLICY_BAD_HANDLE_IGNORE name).get_bad_handle_policy =
      MX_POLICY_BAD_HANDLE_IGNORE :=
  rfl

end Lifecycle

section Dispatcher

/-- C5. Status of `mxio_dispatcher_start`, path by path. When a dispatcher thread was already
started (`md->t` is not `NULL`) the call returns `ERR_BAD_STATE`, creates no thread and
leaves `md` unchanged. When `md->t` is `NULL` and thread creation succeeds it returns
`NO_ERROR`, and a second start on the resulting dispatcher returns `ERR_BAD_STATE`. When
thread creation fails, the code sets `r = ERR_NO_RESOURCES` after
`mxio_dispatcher_destroy(md)` has freed `md`, and then unlocks `md->lock` inside the freed
block: from there on the code defines no status. -/
theorem mxio_dispatcher_start_status (E : mx_errors) (md : mxio_dispatcher) (status : Int)
    (thread : Nat) :
    (∀ t, md.t = some t →
      mxio_dispatcher_start E md status thread =
        (some E.ERR_BAD_STATE, some md,
          [sys_call.mxr_mutex_lock, sys_call.mxr_mutex_unlock])) ∧
    (md.t = none → status ≠ 0 →
      (mxio_dispatcher_start_locked E md status thread).1 = E.ERR_NO_RESOURCES ∧
      mxio_dispatcher_start E md status thread =
        (none, none,
          [sys_call.mxr_mutex_lock, sys_call.mxr_thread_create,
            sys_call.mx_handle_close md.ioport, sys_call.free,
            sys_call.mxr_mutex_unlock])) ∧
    (md.t = none → status = 0 →
      mxio_dispatcher_start E md status thread =
        (some E.NO_ERROR, some { md with t := some thread },
          [sys_call.mxr_mutex_lock, sys_call.mxr_thread_create,
            sys_call.mxr_thread_detach thread, sys_call.mxr_mutex_unlock]) ∧
      ∀ status2 thread2,
        mxio_dispatcher_start E { md with t := some thread } status2 thread2 =
          (some E.ERR_BAD_STATE, some { md with t := some thread },
            [sys_call.mxr_mutex_lock, sys_call.mxr_mutex_unlock])) := by
  refine ⟨?_, ?_, ?_⟩
  · intro t ht
    simp [mxio_dispatcher_start, mxio_dispatcher_start_locked, mxr_mutex_unlock, ht]
  · intro ht hs
    simp [mxio_dispatcher_start, mxio_dispatcher_start_locked, mxr_mutex_unlock,
      mxio_dispatcher_destroy, free, ht, hs]
  · intro ht hs
    refine ⟨?_, ?_⟩
    · simp [mxio_dispatcher_start, mxio_dispatcher_start_locked, mxr_mutex_unlock, ht, hs]
    · intro status2 thread2
      simp [mxio_dispatcher_start, mxio_dispatcher_start_locked, mxr_mutex_unlock]

/-- The three paths of `mxio_dispatcher_start` on a dispatcher with port 7: a first start
that succeeds, a start on a dispatcher whose thread is running, and a start whose thread
creation fails with status -1. -/
theorem mxio_dispatcher_start_example :
    (mxio_dispatcher_start ⟨0, -4, -5, -20, -9999⟩ ⟨[], 7, 3, none⟩ 0 11).1 = some 0 ∧
    (mxio_dispatcher_start ⟨0, -4, -5, -20, -9999⟩ ⟨[], 7, 3, some 11⟩ 0 12).1 = some (-20) ∧
    mxio_dispatcher_start ⟨0, -4, -5, -20, -9999⟩ ⟨[], 7, 3, none⟩ (-1) 11 =
      (none, none,
        [sys_call.mxr_mutex_lock, sys_call.mxr_thread_create, sys_call.mx_handle_close 7,
          sys_call.free, sys_call.mxr_mutex_unlock]) := by
  decide

/-- C6. Status of `mxio_dispatcher_create`: it returns `ERR_NO_MEMORY` when allocating the
dispatcher fails, and in both failure cases it does not write `*out`; on success it returns
`NO_ERROR` and stores in `*out` a dispatcher with an empty handler list, no thread, the new
port and the callback `cb`. When the I/O port cannot be created, however, the status it
returns is read from the dispatcher block after `free(md)`: the code defines no value for
it. -/
theorem mxio_dispatcher_create_status (E : mx_errors) (out : Option mxio_dispatcher)
    (cb : Nat) (port : Int) :
    mxio_dispatcher_create E false port out cb = (some E.ERR_NO_MEMORY, out) ∧
    (port < 0 → mxio_dispatcher_create E true port out cb = (none, out)) ∧
    (0 ≤ port → mxio_dispatcher_create E true port out cb =
      (some E.NO_ERROR, some { list := [], ioport := port, cb := cb, t := none })) ∧
    mxio_dispatcher_create E true (-1) out cb = (none, out) := by
  refine ⟨by simp [mxio_dispatcher_create], ?_, ?_, ?_⟩
  · intro hp
    simp [mxio_dispatcher_create, hp, free, load_ioport]
  · intro hp
    simp [mxio_dispatcher_create, not_lt.mpr hp]
  · simp [mxio_dispatcher_create, free, load_ioport]

theorem list_delete_fresh (list : List (Nat × handler_t)) (handler : Nat) (node : handler_t)
    (hfresh : ∀ n ∈ list, n.1 ≠ handler) :
    list_delete (list ++ [(handler, node)]) handler = list := by
  unfold list_delete
  rw [List.filter_append]
  have h1 : List.filter (fun n => n.1 != handler) list = list := by
    rw [List.filter_eq_self]
    intro n hn
    simpa using hfresh n hn
  rw [h1]
  simp

/-- C10. `mxio_dispatcher_add` is atomic on the handler list. With `handler` an address that
no node of the list has (as `malloc` returns): when allocation fails it returns
`ERR_NO_MEMORY`, when binding to the I/O port fails it returns that negative status, and in
both cases the dispatcher is exactly what it was before the call; when binding succeeds it
returns the bind status and the list is the previous list with exactly one new handler
appended at the tail, carrying `(h, cb, cookie)` and flags 0. -/
theorem mxio_dispatcher_add_atomic (E : mx_errors) (md : mxio_dispatcher) (handler : Nat)
    (bind h : Int) (cb cookie : Nat) (hfresh : ∀ n ∈ md.list, n.1 ≠ handler) :
    mxio_dispatcher_add E md none bind h cb cookie = (E.ERR_NO_MEMORY, md) ∧
    (bind < 0 → mxio_dispatcher_add E md (some handler) bind h cb cookie = (bind, md)) ∧
    (0 ≤ bind → mxio_dispatcher_add E md (some handler) bind h cb cookie =
      (bind, { md with
        list := md.list ++ [(handler, { h := h, flags := 0, cb := cb, cookie := cookie })] }))
    := by
  refine ⟨rfl, ?_, ?_⟩
  · intro hb
    simp [mxio_dispatcher_add, hb, list_delete_fresh _ _ _ hfresh]
  · intro hb
    simp [mxio_dispatcher_add, not_lt.mpr hb]

theorem mxio_dispatcher_add_atomic_witness :
    mxio_dispatcher_add ⟨0, -4, -5, -20, -9999⟩ ⟨[(100, ⟨5, 1, 2, 3⟩)], 7, 3, none⟩
        (some 200) (-2) 6 8 9 = (-2, ⟨[(100, ⟨5, 1, 2, 3⟩)], 7, 3, none⟩) ∧
    mxio_dispatcher_add ⟨0, -4, -5, -20, -9999⟩ ⟨[(100, ⟨5, 1, 2, 3⟩)], 7, 3, none⟩
        (some 200) 0 6 8 9 =
      (0, ⟨[(100, ⟨5, 1, 2, 3⟩), (200, ⟨6, 0, 8, 9⟩)], 7, 3, none⟩) :=
  ⟨(mxio_dispatcher_add_atomic ⟨0, -4, -5, -20, -9999⟩ ⟨[(100, ⟨5, 1, 2, 3⟩)], 7, 3, none⟩
      200 (-2) 6 8 9 (by decide)).2.1 (by decide),
    (mxio_dispatcher_add_atomic ⟨0, -4, -5, -20, -9999⟩ ⟨[(100, ⟨5, 1, 2, 3⟩)], 7, 3, none⟩
      200 0 6 8 9 (by decide)).2.2 (by decide)⟩

theorem is_disconnected_after_flag (hd : handler_t) :
    is_disconnected { hd with flags := hd.flags ||| FLAG_DISCONNECTED } = true := by
  have h : (hd.flags ||| 1) % 2 = 1 := Nat.or_mod_two_eq_one.mpr (Or.inr rfl)
  simp [is_disconnected, FLAG_DISCONNECTED, h]

theorem handler_at_disconnect (md : mxio_dispatcher) (key j : Nat) :
    handler_at (disconnect_handler md key) j =
      (handler_at md j).map (fun hd =>
        if j = key then { hd with flags := hd.flags ||| FLAG_DISCONNECTED } else hd) := by
  unfold handler_at disconnect_handler
  simp only
  induction md.list with
  | nil => simp
  | cons n l ih =>
    obtain ⟨a, b⟩ := n
    by_cases hja : j = a
    · subst hja
      by_cases hk : j = key
      · simp [hk]
      · simp [hk]
    · have hne : (j == a) = false := by simpa using hja
      by_cases hk : a = key
      · simp only [List.map_cons, hk, if_true]
        rw [List.lookup_cons, List.lookup_cons]
        have hne2 : (j == key) = false := by simpa [hk] using hja
        simp only [hne2, ← hk, hne]
        simpa [hk] using ih
      · simp only [List.map_cons, hk, if_false]
        rw [List.lookup_cons, List.lookup_cons]
        simp only [hne]
        exact ih

theorem handler_at_destroy (md : mxio_dispatcher) (key j : Nat) :
    handler_at (destroy_handler md key) j = if j = key then none else handler_at md j := by
  unfold handler_at destroy_handler list_delete
  simp only
  induction md.list with
  | nil => simp
  | cons n l ih =>
    obtain ⟨a, b⟩ := n
    by_cases hak : a = key
    · subst hak
      simp only [List.filter_cons, bne_self_eq_false, Bool.false_eq_true, if_false]
      rw [ih]
      by_cases hja : j = a
      · simp [hja]
      · have hne : (j == a) = false := by simpa using hja
        simp [hja, List.lookup_cons, hne]
    · have hb : (a != key) = true := by simpa using hak
      simp only [List.filter_cons, hb, if_true]
      rw [List.lookup_cons, List.lookup_cons, ih]
      by_cases hja : j = a
      · subst hja
        simp [hak]
      · have hne : (j == a) = false := by simpa using hja
        simp [hne]

theorem silenced_disconnect (md : mxio_dispatcher) (key j : Nat)
    (h : j = key ∨ silenced md j) : silenced (disconnect_handler md key) j := by
  intro hd hhd
  rw [handler_at_disconnect] at hhd
  cases h0 : handler_at md j with
  | none => simp [h0] at hhd
  | some hd0 =>
    simp only [h0, Option.map_some', Option.some.injEq] at hhd
    by_cases hj : j = key
    · simp only [hj, if_true] at hhd
      rw [← hhd]
      exact is_disconnected_after_flag hd0
    · simp only [hj, if_false] at hhd
      rw [← hhd]
      rcases h with h | h
      · exact absurd h hj
      · exact h hd0 h0

theorem silenced_destroy (md : mxio_dispatcher) (key j : Nat)
    (h : j = key ∨ silenced md j) : silenced (destroy_handler md key) j := by
  intro hd hhd
  rw [handler_at_destroy] at hhd
  by_cases hj : j = key
  · simp [hj] at hhd
  · simp only [hj, if_false] at hhd
    rcases h with h | h
    · exact absurd h hj
    · exact h hd hhd

theorem drain_shape (E : mx_errors) (cbret : Nat → Int) (key : Nat) (hd : handler_t) :
    ∀ (fuel calls : Nat), ∃ cbs : List Event,
      (∀ e ∈ cbs, e = Event.callback key hd.h) ∧
      ((drain E cbret key hd fuel calls).1 = cbs ∨
        ((drain E cbret key hd fuel calls).1 = cbs ++ [Event.close key] ∧
          (drain E cbret key hd fuel calls).2.2 = drain_exit.disconnect))
  | 0, calls => ⟨[], by simp, Or.inl rfl⟩
  | fuel + 1, calls => by
    by_cases hr : cbret calls = 0
    · obtain ⟨cbs, hcbs, hshape⟩ := drain_shape E cbret key hd fuel (calls + 1)
      refine ⟨Event.callback key hd.h :: cbs, ?_, ?_⟩
      · intro e he
        rcases List.mem_cons.mp he with he | he
        · exact he
        · exact hcbs e he
      · rcases hshape with h1 | ⟨h1, h2⟩
        · left
          simp [drain, hr, h1]
        · right
          simp [drain, hr, h1, h2]
    · by_cases hw : cbret calls = E.ERR_DISPATCHER_NO_WORK
      · have hw0 : ¬ E.ERR_DISPATCHER_NO_WORK = 0 := fun e => hr (hw.trans e)
        exact ⟨[Event.callback key hd.h], by simp, Or.inl (by simp [drain, hw, hw0])⟩
      · by_cases hneg : cbret calls < 0
        · refine ⟨[Event.callback key hd.h], by simp, Or.inr ?_⟩
          simp [drain, hr, hw, hneg]
        · exact ⟨[Event.callback key hd.h], by simp, Or.inl (by simp [drain, hr, hw, hneg])⟩

theorem dispatch_shape (S : mx_signals) (E : mx_errors) (cbret : Nat → Int) (fuel : Nat)
    (md : mxio_dispatcher) (calls : Nat) (packet : mx_io_packet_t) :
    ((dispatch S E cbret fuel md calls packet).events = [] ∧
      (dispatch S E cbret fuel md calls packet).md = md) ∨
    (∃ hd, handler_at md packet.key = some hd ∧ is_disconnected hd = true ∧
      packet.signals &&& S.MX_SIGNAL_SIGNALED ≠ 0 ∧
      (dispatch S E cbret fuel md calls packet).events = [Event.destroy packet.key] ∧
      (dispatch S E cbret fuel md calls packet).md = destroy_handler md packet.key) ∨
    (∃ hd cbs, handler_at md packet.key = some hd ∧ is_disconnected hd = false ∧
      (∀ e ∈ cbs, e = Event.callback packet.key hd.h) ∧
      (((dispatch S E cbret fuel md calls packet).events = cbs ∧
          (dispatch S E cbret fuel md calls packet).md = md) ∨
        ((dispatch S E cbret fuel md calls packet).events =
            cbs ++ [Event.disconnect packet.key] ∧
          (dispatch S E cbret fuel md calls packet).md =
            disconnect_handler md packet.key) ∨
        ((dispatch S E cbret fuel md calls packet).events =
            cbs ++ [Event.close packet.key, Event.disconnect packet.key] ∧
          (dispatch S E cbret fuel md calls packet).md =
            disconnect_handler md packet.key))) := by
  cases hh : handler_at md packet.key with
  | none => left; simp [dispatch, hh]
  | some hd =>
    cases hdis : is_disconnected hd with
    | true =>
      by_cases hsig : packet.signals &&& S.MX_SIGNAL_SIGNALED = 0
      · left; simp [dispatch, hh, hdis, hsig]
      · right; left
        exact ⟨hd, rfl, hdis, hsig, by simp [dispatch, hh, hdis, hsig],
          by simp [dispatch, hh, hdis, hsig]⟩
    | false =>
      right; right
      by_cases hrd : packet.signals &&& S.MX_SIGNAL_READABLE = 0
      · refine ⟨hd, [], rfl, hdis, by simp, ?_⟩
        by_cases hpc : packet.signals &&& S.MX_SIGNAL_PEER_CLOSED = 0
        · left; simp [dispatch, hh, hdis, hrd, hpc]
        · right; right; simp [dispatch, hh, hdis, hrd, hpc]
      · obtain ⟨cbs, hcbs, hshape⟩ := drain_shape E cbret packet.key hd fuel calls
        rcases hshape with h1 | ⟨h1, h2⟩
        · refine ⟨hd, cbs, rfl, hdis, hcbs, ?_⟩
          cases hx : (drain E cbret packet.key hd fuel calls).2.2 with
          | out_of_fuel => left; simp [dispatch, hh, hdis, hrd, hx, h1]
          | disconnect => right; left; simp [dispatch, hh, hdis, hrd, hx, h1]
          | no_work =>
            by_cases hpc : packet.signals &&& S.MX_SIGNAL_PEER_CLOSED = 0
            · left; simp [dispatch, hh, hdis, hrd, hx, h1, hpc]
            · right; right; simp [dispatch, hh, hdis, hrd, hx, h1, hpc]
        · refine ⟨hd, cbs, rfl, hdis, hcbs, ?_⟩
          right; right
          simp [dispatch, hh, hdis, hrd, h1, h2]

theorem pass_silent (S : mx_signals) (E : mx_errors) (cbret : Nat → Int) (fuel : Nat)
    (md : mxio_dispatcher) (calls : Nat) (packet : mx_io_packet_t) (j : Nat)
    (hq : silenced md j) :
    ∀ e ∈ (dispatch S E cbret fuel md calls packet).events, e.invokes j = false := by
  intro e he
  rcases dispatch_shape S E cbret fuel md calls packet with
    ⟨h1, _⟩ | ⟨hd, _, _, _, h1, _⟩ | ⟨hd, cbs, hh, hdis, hcbs, hshape⟩
  · simp [h1] at he
  · simp only [h1, List.mem_singleton] at he
    simp [he, Event.invokes]
  · have hkj : ¬ packet.key = j := by
      intro hkj
      have := hq hd (hkj ▸ hh)
      simp [hdis] at this
    have hcb : ∀ e ∈ cbs, e.invokes j = false := by
      intro e he
      simp [hcbs e he, Event.invokes, hkj]
    rcases hshape with ⟨h1, _⟩ | ⟨h1, _⟩ | ⟨h1, _⟩
    · exact hcb e (h1 ▸ he)
    · rw [h1] at he
      rcases List.mem_append.mp he with he | he
      · exact hcb e he
      · simp only [List.mem_singleton] at he
        simp [he, Event.invokes]
    · rw [h1] at he
      rcases List.mem_append.mp he with he | he
      · exact hcb e he
      · simp only [List.mem_cons, List.mem_singleton, List.not_mem_nil, or_false] at he
        rcases he with he | he <;> simp [he, Event.invokes, hkj]

theorem pass_silenced (S : mx_signals) (E : mx_errors) (cbret : Nat → Int) (fuel : Nat)
    (md : mxio_dispatcher) (calls : Nat) (packet : mx_io_packet_t) (j : Nat)
    (hq : silenced md j) : silenced (dispatch S E cbret fuel md calls packet).md j := by
  rcases dispatch_shape S E cbret fuel md calls packet with
    ⟨_, h2⟩ | ⟨hd, _, _, _, _, h2⟩ | ⟨hd, cbs, _, _, _, hshape⟩
  · rw [h2]; exact hq
  · rw [h2]; exact silenced_destroy md _ j (Or.inr hq)
  · rcases hshape with ⟨_, h2⟩ | ⟨_, h2⟩ | ⟨_, h2⟩
    · rw [h2]; exact hq
    · rw [h2]; exact silenced_disconnect md _ j (Or.inr hq)
    · rw [h2]; exact silenced_disconnect md _ j (Or.inr hq)

theorem count_close_callbacks (key j : Nat) (h : Int) (cbs : List Event)
    (hcbs : ∀ e ∈ cbs, e = Event.callback key h) : cbs.count (Event.close j) = 0 := by
  rw [List.count_eq_zero]
  intro hmem
  have := hcbs _ hmem
  simp at this

theorem pass_close (S : mx_signals) (E : mx_errors) (cbret : Nat → Int) (fuel : Nat)
    (md : mxio_dispatcher) (calls : Nat) (packet : mx_io_packet_t) (j : Nat) :
    (dispatch S E cbret fuel md calls packet).events.count (Event.close j) ≤ 1 ∧
      (Event.close j ∈ (dispatch S E cbret fuel md calls packet).events →
        silenced (dispatch S E cbret fuel md calls packet).md j) := by
  rcases dispatch_shape S E cbret fuel md calls packet with
    ⟨h1, _⟩ | ⟨hd, _, _, _, h1, _⟩ | ⟨hd, cbs, hh, hdis, hcbs, hshape⟩
  · simp [h1]
  · simp [h1]
  · have hc := count_close_callbacks packet.key j hd.h cbs hcbs
    have hnot : Event.close j ∉ cbs := List.count_eq_zero.mp hc
    rcases hshape with ⟨h1, _⟩ | ⟨h1, _⟩ | ⟨h1, h2⟩
    · rw [h1]
      exact ⟨by omega, fun hm => absurd hm hnot⟩
    · rw [h1]
      refine ⟨by simp [List.count_append, hc], fun hm => ?_⟩
      rcases List.mem_append.mp hm with hm | hm
      · exact absurd hm hnot
      · simp at hm
    · rw [h1, h2]
      refine ⟨?_, fun hm => ?_⟩
      · rw [List.count_append, hc, List.count_cons, List.count_cons]
        simp only [List.count_nil, zero_add]
        split_ifs <;> simp_all
      · rcases List.mem_append.mp hm with hm | hm
        · exact absurd hm hnot
        · simp only [List.mem_cons, Event.close.injEq, List.mem_singleton,
            List.not_mem_nil, or_false] at hm
          rcases hm with hm | hm
          · exact silenced_disconnect md _ j (Or.inl hm)
          · simp at hm

theorem pairwise_of_no_disconnect :
    ∀ (l : List Event), (∀ e ∈ l, ∀ k, e ≠ Event.disconnect k) →
      l.Pairwise (fun e1 e2 => ∀ k, e1 = Event.disconnect k → e2.invokes k = false)
  | [], _ => List.Pairwise.nil
  | a :: l, h => by
    rw [List.pairwise_cons]
    refine ⟨fun b _ k hk => absurd hk (h a (List.mem_cons_self a l) k), ?_⟩
    exact pairwise_of_no_disconnect l (fun e he => h e (List.mem_cons_of_mem a he))

theorem pairwise_snoc_of_no_disconnect (l : List Event) (x : Event)
    (h : ∀ e ∈ l, ∀ k, e ≠ Event.disconnect k) :
    (l ++ [x]).Pairwise (fun e1 e2 => ∀ k, e1 = Event.disconnect k → e2.invokes k = false) := by
  rw [List.pairwise_append]
  refine ⟨pairwise_of_no_disconnect l h, List.pairwise_singleton _ _, ?_⟩
  intro a ha b _ k hk
  exact absurd hk (h a ha k)

theorem pass_pairwise (S : mx_signals) (E : mx_errors) (cbret : Nat → Int) (fuel : Nat)
    (md : mxio_dispatcher) (calls : Nat) (packet : mx_io_packet_t) :
    (dispatch S E cbret fuel md calls packet).events.Pairwise
        (fun e1 e2 => ∀ k, e1 = Event.disconnect k → e2.invokes k = false) ∧
      ∀ k, Event.disconnect k ∈ (dispatch S E cbret fuel md calls packet).events →
        silenced (dispatch S E cbret fuel md calls packet).md k := by
  rcases dispatch_shape S E cbret fuel md calls packet with
    ⟨h1, _⟩ | ⟨hd, _, _, _, h1, _⟩ | ⟨hd, cbs, hh, hdis, hcbs, hshape⟩
  · simp [h1]
  · simp [h1]
  · have hnd : ∀ e ∈ cbs, ∀ k, e ≠ Event.disconnect k := by
      intro e he k hk
      have := hcbs e he
      rw [hk] at this
      simp at this
    rcases hshape with ⟨h1, _⟩ | ⟨h1, h2⟩ | ⟨h1, h2⟩
    · rw [h1]
      refine ⟨pairwise_of_no_disconnect cbs hnd, fun k hk => absurd rfl (hnd _ hk k)⟩
    · rw [h1, h2]
      refine ⟨pairwise_snoc_of_no_disconnect cbs _ hnd, fun k hk => ?_⟩
      rcases List.mem_append.mp hk with hk | hk
      · exact absurd rfl (hnd _ hk k)
      · simp only [List.mem_singleton, Event.disconnect.injEq] at hk
        exact silenced_disconnect md _ k (Or.inl hk)
    · rw [h1, h2]
      refine ⟨?_, fun k hk => ?_⟩
      · have : cbs ++ [Event.close packet.key, Event.disconnect packet.key] =
            (cbs ++ [Event.close packet.key]) ++ [Event.disconnect packet.key] := by simp
        rw [this]
        refine pairwise_snoc_of_no_disconnect _ _ ?_
        intro e he k hk
        rcases List.mem_append.mp he with he | he
        · exact hnd e he k hk
        · simp only [List.mem_singleton] at he
          rw [he] at hk
          simp at hk
      · rcases List.mem_append.mp hk with hk | hk
        · exact absurd rfl (hnd _ hk k)
        · simp only [List.mem_cons, Event.disconnect.injEq, List.mem_singleton,
            List.not_mem_nil, or_false] at hk
          rcases hk with hk | hk
          · simp at hk
          · exact silenced_disconnect md _ k (Or.inl hk)

theorem pass_destroy (S : mx_signals) (E : mx_errors) (cbret : Nat → Int) (fuel : Nat)
    (md : mxio_dispatcher) (calls : Nat) (packet : mx_io_packet_t) (k : Nat)
    (hk : Event.destroy k ∈ (dispatch S E cbret fuel md calls packet).events) :
    k = packet.key ∧ packet.signals &&& S.MX_SIGNAL_SIGNALED ≠ 0 ∧
      ∃ hd, handler_at md k = some hd ∧ is_disconnected hd = true := by
  rcases dispatch_shape S E cbret fuel md calls packet with
    ⟨h1, _⟩ | ⟨hd, hh, hdis, hsig, h1, _⟩ | ⟨hd, cbs, hh, hdis, hcbs, hshape⟩
  · simp [h1] at hk
  · simp only [h1, List.mem_singleton, Event.destroy.injEq] at hk
    subst hk
    exact ⟨rfl, hsig, hd, hh, hdis⟩
  · exfalso
    have hnot : Event.destroy k ∉ cbs := by
      intro hm
      have := hcbs _ hm
      simp at this
    rcases hshape with ⟨h1, _⟩ | ⟨h1, _⟩ | ⟨h1, _⟩
    · exact hnot (h1 ▸ hk)
    · rw [h1] at hk
      rcases List.mem_append.mp hk with hk | hk
      · exact hnot hk
      · simp at hk
    · rw [h1] at hk
      rcases List.mem_append.mp hk with hk | hk
      · exact hnot hk
      · simp at hk

theorem thread_cons (S : mx_signals) (E : mx_errors) (cbret : Nat → Int) (fuel : Nat)
    (w : wait_result) (ws : List wait_result) (md : mxio_dispatcher) (calls : Nat) :
    mxio_dispatcher_thread S E cbret fuel (w :: ws) md calls =
      if w.r < 0 then []
      else
        { packet := w.packet, md := md,
          events := (dispatch S E cbret fuel md calls w.packet).events } ::
          (if (dispatch S E cbret fuel md calls w.packet).goes_on then
            mxio_dispatcher_thread S E cbret fuel ws
              (dispatch S E cbret fuel md calls w.packet).md
              (dispatch S E cbret fuel md calls w.packet).calls
          else []) :=
  rfl

theorem trace_cons (s : Step) (steps : List Step) :
    trace (s :: steps) = s.events ++ trace steps := by
  simp [trace]

theorem run_silent (S : mx_signals) (E : mx_errors) (cbret : Nat → Int) (fuel : Nat) (j : Nat) :
    ∀ (ws : List wait_result) (md : mxio_dispatcher) (calls : Nat), silenced md j →
      ∀ e ∈ trace (mxio_dispatcher_thread S E cbret fuel ws md calls), e.invokes j = false
  | [], _, _, _ => by simp [mxio_dispatcher_thread, trace]
  | w :: ws, md, calls, hq => by
    intro e he
    rw [thread_cons] at he
    by_cases hr : w.r < 0
    · simp [hr, trace] at he
    · simp only [hr, if_false, trace_cons] at he
      rcases List.mem_append.mp he with he | he
      · exact pass_silent S E cbret fuel md calls w.packet j hq e he
      · by_cases hg : (dispatch S E cbret fuel md calls w.packet).goes_on = true
        · simp only [hg, if_true] at he
          exact run_silent S E cbret fuel j ws _ _
            (pass_silenced S E cbret fuel md calls w.packet j hq) e he
        · simp [hg, trace] at he

theorem run_close_once (S : mx_signals) (E : mx_errors) (cbret : Nat → Int) (fuel : Nat)
    (j : Nat) :
    ∀ (ws : List wait_result) (md : mxio_dispatcher) (calls : Nat),
      (trace (mxio_dispatcher_thread S E cbret fuel ws md calls)).count (Event.close j) ≤ 1
  | [], _, _ => by simp [mxio_dispatcher_thread, trace]
  | w :: ws, md, calls => by
    rw [thread_cons]
    by_cases hr : w.r < 0
    · simp [hr, trace]
    · simp only [hr, if_false, trace_cons, List.count_append]
      obtain ⟨hle, hsil⟩ := pass_close S E cbret fuel md calls w.packet j
      by_cases hg : (dispatch S E cbret fuel md calls w.packet).goes_on = true
      · simp only [hg, if_true]
        by_cases hm : Event.close j ∈ (dispatch S E cbret fuel md calls w.packet).events
        · have hrest : (trace (mxio_dispatcher_thread S E cbret fuel ws
              (dispatch S E cbret fuel md calls w.packet).md
              (dispatch S E cbret fuel md calls w.packet).calls)).count (Event.close j) = 0 := by
            rw [List.count_eq_zero]
            intro hmem
            have := run_silent S E cbret fuel j ws _ _ (hsil hm) _ hmem
            simp [Event.invokes] at this
          omega
        · have h0 : (dispatch S E cbret fuel md calls w.packet).events.count (Event.close j) = 0 :=
            List.count_eq_zero.mpr hm
          have := run_close_once S E cbret fuel j ws
            (dispatch S E cbret fuel md calls w.packet).md
            (dispatch S E cbret fuel md calls w.packet).calls
          omega
      · simp only [hg]
        simp only [Bool.false_eq_true, if_false, trace, List.flatMap_nil, List.count_nil]
        omega

theorem run_pairwise (S : mx_signals) (E : mx_errors) (cbret : Nat → Int) (fuel : Nat) :
    ∀ (ws : List wait_result) (md : mxio_dispatcher) (calls : Nat),
      (trace (mxio_dispatcher_thread S E cbret fuel ws md calls)).Pairwise
        (fun e1 e2 => ∀ k, e1 = Event.disconnect k → e2.invokes k = false)
  | [], _, _ => by simp [mxio_dispatcher_thread, trace]
  | w :: ws, md, calls => by
    rw [thread_cons]
    by_cases hr : w.r < 0
    · simp [hr, trace]
    · simp only [hr, if_false, trace_cons]
      obtain ⟨hpw, hsil⟩ := pass_pairwise S E cbret fuel md calls w.packet
      by_cases hg : (dispatch S E cbret fuel md calls w.packet).goes_on = true
      · simp only [hg, if_true]
        rw [List.pairwise_append]
        refine ⟨hpw, run_pairwise S E cbret fuel ws _ _, ?_⟩
        intro a ha b hb k hk
        exact run_silent S E cbret fuel k ws _ _ (hsil k (hk ▸ ha)) b hb
      · simp only [hg]
        simpa [trace] using hpw

theorem run_destroy (S : mx_signals) (E : mx_errors) (cbret : Nat → Int) (fuel : Nat) :
    ∀ (ws : List wait_result) (md : mxio_dispatcher) (calls : Nat),
      ∀ s ∈ mxio_dispatcher_thread S E cbret fuel ws md calls, ∀ k,
        Event.destroy k ∈ s.events →
          k = s.packet.key ∧ s.packet.signals &&& S.MX_SIGNAL_SIGNALED ≠ 0 ∧
            ∃ hd, handler_at s.md k = some hd ∧ is_disconnected hd = true
  | [], _, _ => by simp [mxio_dispatcher_thread]
  | w :: ws, md, calls => by
    intro s hs k hk
    rw [thread_cons] at hs
    by_cases hr : w.r < 0
    · simp [hr] at hs
    · simp only [hr, if_false, List.mem_cons] at hs
      rcases hs with hs | hs
      · subst hs
        exact pass_destroy S E cbret fuel md calls w.packet k hk
      · by_cases hg : (dispatch S E cbret fuel md calls w.packet).goes_on = true
        · simp only [hg, if_true] at hs
          exact run_destroy S E cbret fuel ws _ _ s hs k hk
        · simp [hg] at hs

theorem run_suffix (S : mx_signals) (E : mx_errors) (cbret : Nat → Int) (fuel : Nat)
    (s : Step) (post : List Step) :
    ∀ (ws : List wait_result) (md : mxio_dispatcher) (calls : Nat),
      (s :: post) <:+ mxio_dispatcher_thread S E cbret fuel ws md calls →
        ∃ ws2 calls2, s :: post = mxio_dispatcher_thread S E cbret fuel ws2 s.md calls2
  | [], _, _ => by simp [mxio_dispatcher_thread]
  | w :: ws, md, calls => by
    intro hsuf
    by_cases hr : w.r < 0
    · rw [thread_cons] at hsuf
      simp [hr] at hsuf
    · have hrun := thread_cons S E cbret fuel w ws md calls
      simp only [hr, if_false] at hrun
      rw [hrun, List.suffix_cons_iff] at hsuf
      rcases hsuf with heq | hsuf
      · refine ⟨w :: ws, calls, ?_⟩
        have hmd : s.md = md := by
          have := (List.cons.inj heq).1
          rw [this]
        rw [hmd, hrun]
        exact heq
      · by_cases hg : (dispatch S E cbret fuel md calls w.packet).goes_on = true
        · simp only [hg, if_true] at hsuf
          exact run_suffix S E cbret fuel s post ws _ _ hsuf
        · simp [hg] at hsuf

/-- C9. In the dispatcher loop, for every sequence of wait results, every behaviour of the
user callback, every bound on the drain loop and every dispatcher: the synthesized close
callback is delivered at most once per handler; after `disconnect_handler` has run for a
handler no later event invokes the callback for it; from any pass on in which a handler is
flagged `FLAG_DISCONNECTED` when the packet is received, the callback is not invoked for it;
and a handler is destroyed only in a pass whose packet is for it and carries
`MX_SIGNAL_SIGNALED`, the handler being flagged `FLAG_DISCONNECTED` when the packet is
received. -/
theorem dispatcher_loop_close_once (S : mx_signals) (E : mx_errors) (cbret : Nat → Int)
    (fuel : Nat) (ws : List wait_result) (md : mxio_dispatcher) (calls : Nat) :
    (∀ k, (trace (mxio_dispatcher_thread S E cbret fuel ws md calls)).count
      (Event.close k) ≤ 1) ∧
    (trace (mxio_dispatcher_thread S E cbret fuel ws md calls)).Pairwise
      (fun e1 e2 => ∀ k, e1 = Event.disconnect k → e2.invokes k = false) ∧
    (∀ s post k hd, (s :: post) <:+ mxio_dispatcher_thread S E cbret fuel ws md calls →
      handler_at s.md k = some hd → is_disconnected hd = true →
        ∀ e ∈ trace (s :: post), e.invokes k = false) ∧
    (∀ s ∈ mxio_dispatcher_thread S E cbret fuel ws md calls, ∀ k,
      Event.destroy k ∈ s.events →
        k = s.packet.key ∧ s.packet.signals &&& S.MX_SIGNAL_SIGNALED ≠ 0 ∧
          ∃ hd, handler_at s.md k = some hd ∧ is_disconnected hd = true) := by
  refine ⟨fun k => run_close_once S E cbret fuel k ws md calls,
    run_pairwise S E cbret fuel ws md calls, ?_, run_destroy S E cbret fuel ws md calls⟩
  intro s post k hd hsuf hh hdis
  obtain ⟨ws2, calls2, heq⟩ := run_suffix S E cbret fuel s post ws md calls hsuf
  rw [heq]
  refine run_silent S E cbret fuel k ws2 s.md calls2 ?_
  intro hd2 hh2
  rw [hh] at hh2
  rw [← Option.some.inj hh2]
  exact hdis

/-- A run of the loop on one handler at address 100: a readable packet (two callbacks, the
second reporting no work), a readable and peer-closed packet (a callback, then the
synthesized close and the disconnect), a further readable packet (ignored), the packet
carrying `MX_SIGNAL_SIGNALED` (the handler is destroyed). -/
theorem dispatcher_loop_example :
    trace (mxio_dispatcher_thread ⟨1, 4, 8⟩ ⟨0, -4, -5, -20, -9999⟩
        (fun n => if n = 0 then 0 else -9999) 10
        [⟨0, ⟨100, 1⟩⟩, ⟨0, ⟨100, 5⟩⟩, ⟨0, ⟨100, 1⟩⟩, ⟨0, ⟨100, 8⟩⟩]
        ⟨[(100, ⟨5, 0, 2, 3⟩)], 7, 3, some 1⟩ 0) =
      [Event.callback 100 5, Event.callback 100 5, Event.callback 100 5, Event.close 100,
        Event.disconnect 100, Event.destroy 100] := by
  decide

end Dispatcher

section Acpi

/-- C11. `notify_event_handler` signals the power-button event exactly when
`AcpiGetObjectInfo` succeeds, the returned info has the `ACPI_VALID_HID` bit set, and either
`Value` is 128 and the hardware id compares equal to "PNP0C0C" under `strncmp` bounded by
`HardwareId.Length`, or `Value` is 199 and it compares equal to "MSHW0028" or to "MSHW0040"
under the same bounded comparison. It then signals the event of `Context`, once; on every
other input on which the handler is defined no call signals an event. -/
theorem notify_event_handler_signals_iff (K : acpi_consts)
    (cmp : List Nat → List Nat → Nat → Int) (status : Nat) (info : Option ACPI_DEVICE_INFO)
    (Value : Nat) (event : Int) :
    ((∃ calls e, notify_event_handler K cmp status info Value event = some calls ∧
        acpi_call.mx_event_signal e ∈ calls) ↔
      (status = K.AE_OK ∧ ∃ i, info = some i ∧ i.Valid &&& K.ACPI_VALID_HID ≠ 0 ∧
        ((Value = 128 ∧
            cmp i.HardwareId.String (literal "PNP0C0C") i.HardwareId.Length = 0) ∨
          (Value = 199 ∧
            (cmp i.HardwareId.String (literal "MSHW0028") i.HardwareId.Length = 0 ∨
              cmp i.HardwareId.String (literal "MSHW0040") i.HardwareId.Length = 0))))) ∧
    ((∃ calls e, notify_event_handler K cmp status info Value event = some calls ∧
        acpi_call.mx_event_signal e ∈ calls) →
      notify_event_handler K cmp status info Value event =
        some [acpi_call.mx_event_signal event, acpi_call.ACPI_FREE]) ∧
    ((status ≠ K.AE_OK ∨ info ≠ none) →
      ∃ calls, notify_event_handler K cmp status info Value event = some calls) := by
  by_cases hs : status = K.AE_OK
  · cases info with
    | none => simp [notify_event_handler, hs]
    | some i =>
      by_cases hv : i.Valid &&& K.ACPI_VALID_HID = 0
      · simp [notify_event_handler, hs, hv]
      · by_cases h1 : Value = 128 ∧
            cmp i.HardwareId.String (literal "PNP0C0C") i.HardwareId.Length = 0
        · simp [notify_event_handler, hs, hv, h1]
        · by_cases h2 : Value = 199 ∧
              (cmp i.HardwareId.String (literal "MSHW0028") i.HardwareId.Length = 0 ∨
                cmp i.HardwareId.String (literal "MSHW0040") i.HardwareId.Length = 0)
          · simp [notify_event_handler, hs, hv, h1, h2]
          · simp [notify_event_handler, hs, hv, h1, h2]
  · cases info with
    | none => simp [notify_event_handler, hs]
    | some i => simp [notify_event_handler, hs]

/-- The handler with the C library comparison, `AE_OK = 0` and `ACPI_VALID_HID = 4`: the
power button id with notify value 128 and one of the two other ids with value 199 signal the
event; another id, another value, a missing HID bit or a failed lookup do not; and since the
comparison is bounded by `Length`, an id that agrees with "PNP0C0C" on its first `Length`
bytes signals as well. -/
theorem notify_event_handler_example :
    notify_event_handler ⟨0, 4⟩ strncmp 0 (some ⟨4, ⟨8, literal "PNP0C0C"⟩⟩) 128 42 =
      some [acpi_call.mx_event_signal 42, acpi_call.ACPI_FREE] ∧
    notify_event_handler ⟨0, 4⟩ strncmp 0 (some ⟨4, ⟨9, literal "MSHW0040"⟩⟩) 199 42 =
      some [acpi_call.mx_event_signal 42, acpi_call.ACPI_FREE] ∧
    notify_event_handler ⟨0, 4⟩ strncmp 0 (some ⟨4, ⟨8, literal "PNP0C0A"⟩⟩) 128 42 =
      some [acpi_call.ACPI_FREE] ∧
    notify_event_handler ⟨0, 4⟩ strncmp 0 (some ⟨4, ⟨8, literal "PNP0C0C"⟩⟩) 199 42 =
      some [acpi_call.ACPI_FREE] ∧
    notify_event_handler ⟨0, 4⟩ strncmp 0 (some ⟨3, ⟨8, literal "PNP0C0C"⟩⟩) 128 42 =
      some [acpi_call.ACPI_FREE] ∧
    notify_event_handler ⟨0, 4⟩ strncmp 5 (some ⟨4, ⟨8, literal "PNP0C0C"⟩⟩) 128 42 =
      some [acpi_call.ACPI_FREE] ∧
    notify_event_handler ⟨0, 4⟩ strncmp 0 (some ⟨4, ⟨3, literal "PNPxyz"⟩⟩) 128 42 =
      some [acpi_call.mx_event_signal 42, acpi_call.ACPI_FREE] := by
  decide

end Acpi

end Magenta
